import Mathlib

/-!
# GigFlow — shallow embedding and verification

A shallow embedding of the GigFlow freelance-marketplace backend
(`user`, `projects`, `sample_work`, `skills`, `category` apps) and proofs
about its CRUD handlers.

The database is a record of lists of rows; each HTTP handler is a pure
function from the caller (an authenticated user or `none`), the query
parameters and the request body to a status code and the post-state of the
database.  Serializer validation and the serializer save/update steps are
framework code, so the handlers are parametrised by a validity predicate
and an apply function; the control flow around them is translated directly
from the view methods in `projects/views.py`, `sample_work/views.py` and
`user/views.py`.  Foreign-key delete behaviour (`on_delete=CASCADE`,
`on_delete=PROTECT`) is translated from the model declarations into
database-level delete operations.
-/

namespace GigFlow

/-- A row of `category.models.Category` (`name`, auto `created_at`). -/
structure Category where
  id : Nat
  name : String
  createdAt : Nat
deriving DecidableEq

/-- A row of `skills.models.Skill`: `name` plus a `category` foreign key
declared with `on_delete=models.CASCADE`. -/
structure Skill where
  id : Nat
  name : String
  categoryId : Nat
  createdAt : Nat
deriving DecidableEq

/-- A row of `user.models.User` (extends `AbstractUser`).  `user_type` is a
nullable/blank CharField, `category` is a nullable foreign key declared with
`on_delete=models.PROTECT`, `phone_number` and `resume` are nullable. -/
structure User where
  id : Nat
  username : String
  email : String
  password : String
  firstName : String
  lastName : String
  userType : Option String
  categoryId : Option Nat
  phoneNumber : Option String
  resume : Option String
deriving DecidableEq

/-- A row of `projects.models.Projects`: `user` foreign key with
`on_delete=models.CASCADE`, `category` foreign key with
`on_delete=models.CASCADE`, a string `deadline`, a decimal `price`
(modelled as an integer number of cents). -/
structure Project where
  id : Nat
  userId : Nat
  name : String
  description : String
  categoryId : Nat
  deadline : String
  price : Int
  createdAt : Nat
deriving DecidableEq

/-- A row of `sample_work.models.SampleWork`: `user` foreign key with
`on_delete=models.CASCADE`, a string `skill` field and an optional image. -/
structure SampleWork where
  id : Nat
  userId : Nat
  name : String
  description : String
  skill : String
  image : Option String
  createdAt : Nat
deriving DecidableEq

/-- The relational store: one list of rows per model. -/
structure DB where
  categories : List Category
  skills : List Skill
  users : List User
  projects : List Project
  sampleWorks : List SampleWork
deriving DecidableEq

/-- Request body accepted by `ProjectSerializer`
(fields `user, name, description, category, deadline, price, created_at`;
the owner is overridden by `serializer.save(user=user)` in the view). -/
structure ProjectData where
  name : String
  description : String
  category : Nat
  deadline : String
  price : Int
deriving DecidableEq

/-- Request body accepted by `SampleWorkSerializer`
(fields `user, name, description, skill, image, created_at`). -/
structure SampleWorkData where
  name : String
  description : String
  skill : String
  image : Option String
deriving DecidableEq

/-- Request body accepted by `UserSerializer` (fields `username, email,
password, first_name, last_name, user_type, category, phone_number, resume`). -/
structure UserData where
  username : String
  email : String
  password : String
  firstName : String
  lastName : String
  userType : Option String
  category : Option Nat
  phoneNumber : Option String
  resume : Option String
deriving DecidableEq

/-- Does `needle` occur as a contiguous sublist of `hay`? -/
def charsContain (hay needle : List Char) : Bool :=
  match hay with
  | [] => needle.isEmpty
  | c :: t => needle.isPrefixOf (c :: t) || charsContain t needle

/-- The ORM `icontains` lookup: case-insensitive substring match of
`needle` inside `hay`. -/
def icontains (hay needle : String) : Bool :=
  charsContain (hay.toList.map Char.toLower) (needle.toList.map Char.toLower)

/-- Fresh autoincrement primary key for the projects table. -/
def freshProjectId (db : DB) : Nat :=
  db.projects.foldr (fun p m => max (p.id + 1) m) 0

/-- Fresh autoincrement primary key for the sample-work table. -/
def freshSampleWorkId (db : DB) : Nat :=
  db.sampleWorks.foldr (fun s m => max (s.id + 1) m) 0

/-- Fresh autoincrement primary key for the users table. -/
def freshUserId (db : DB) : Nat :=
  db.users.foldr (fun u m => max (u.id + 1) m) 0

/-- `ProjectSerializer` save with `user=<owner>`: build a `Projects` row
from the validated body, the fresh id and the caller's id. -/
def projectOfData (pid uid : Nat) (d : ProjectData) : Project :=
  { id := pid, userId := uid, name := d.name, description := d.description,
    categoryId := d.category, deadline := d.deadline, price := d.price,
    createdAt := 0 }

/-- `SampleWorkSerializer` save with `user=<owner>`. -/
def sampleWorkOfData (sid uid : Nat) (d : SampleWorkData) : SampleWork :=
  { id := sid, userId := uid, name := d.name, description := d.description,
    skill := d.skill, image := d.image, createdAt := 0 }

/-- `UserSerializer` save on sign-up: the serializer stores the submitted
fields verbatim, the plaintext password included (the view re-saves with a
hashed password afterwards). -/
def userOfData (uid : Nat) (d : UserData) : User :=
  { id := uid, username := d.username, email := d.email,
    password := d.password, firstName := d.firstName,
    lastName := d.lastName, userType := d.userType,
    categoryId := d.category, phoneNumber := d.phoneNumber,
    resume := d.resume }

/-- Database-level delete of a `Category` row, translated from the three
foreign keys that point at `Category`: `Skill.category` and
`Projects.category` are `on_delete=CASCADE`, while `User.category` is
`on_delete=PROTECT`, so the delete is rejected (`none`, the transaction
aborts and the store is unchanged) whenever some user references the
category; otherwise the category and the skills and projects referencing
it are removed. -/
def deleteCategoryDb (cid : Nat) (db : DB) : Option DB :=
  if db.users.any (fun u => u.categoryId == some cid) then
    none
  else
    some { db with
      categories := db.categories.filter (fun c => c.id != cid),
      skills := db.skills.filter (fun s => s.categoryId != cid),
      projects := db.projects.filter (fun p => p.categoryId != cid) }

/-- Database-level delete of a `User` row: `Projects.user` and
`SampleWork.user` are both `on_delete=CASCADE`, and no foreign key
protects `User`, so the user and every project and sample work they own
are removed. -/
def deleteUserDb (uid : Nat) (db : DB) : DB :=
  { db with
    users := db.users.filter (fun u => u.id != uid),
    projects := db.projects.filter (fun p => p.userId != uid),
    sampleWorks := db.sampleWorks.filter (fun s => s.userId != uid) }

/-- The query parameters consumed by `ProjectsView.get`: the `search`
parameter and the `ProjectsFilter` fields `name` and `category`
(`none` models an absent or empty parameter, which the view and
django-filter both skip). -/
structure ProjectQuery where
  search : Option String
  name : Option String
  category : Option Nat
deriving DecidableEq

/-- `ProjectsView.get`, up to pagination: start from all projects, narrow
by `name__icontains=search` when `search` is given, then apply
`ProjectsFilter`: `name` is a `CharFilter` with `lookup_expr="icontains"`,
`category` is a `CharFilter` resolved as an exact match on the
category foreign key. -/
def projectsGetQueryset (q : ProjectQuery) (db : DB) : List Project :=
  let qs := db.projects
  let qs := match q.search with
    | some s => qs.filter (fun p => icontains p.name s)
    | none => qs
  let qs := match q.name with
    | some n => qs.filter (fun p => icontains p.name n)
    | none => qs
  match q.category with
    | some c => qs.filter (fun p => p.categoryId == c)
    | none => qs

/-- `ProjectsView.post`: 401 when unauthenticated; 403 when the caller's
`user_type` equals `"freelancer"` (the only rejected type); otherwise
validate and save with `user=<caller>` (201), or 400 on invalid data. -/
def projectsPost (valid : ProjectData → Bool) (caller : Option User)
    (body : ProjectData) (db : DB) : Nat × DB :=
  match caller with
  | none => (401, db)
  | some u =>
    if u.userType == some "freelancer" then (403, db)
    else if valid body then
      (201, { db with
        projects := db.projects ++ [projectOfData (freshProjectId db) u.id body] })
    else (400, db)

/-- `ProjectsView.put`: 401 when unauthenticated; fetch by
`Projects.objects.get(id=project_id, user=user)` — id and owner together —
404 when that lookup fails (an absent `project_id` behaves the same);
then validate (400 on failure) and save the update (200). -/
def projectsPut (valid : ProjectData → Bool)
    (applyUpd : Project → ProjectData → Project) (caller : Option User)
    (projectId : Option Nat) (body : ProjectData) (db : DB) : Nat × DB :=
  match caller with
  | none => (401, db)
  | some u =>
    match projectId with
    | none => (404, db)
    | some i =>
      match db.projects.find? (fun p => p.id == i && p.userId == u.id) with
      | none => (404, db)
      | some p =>
        if valid body then
          (200, { db with
            projects := db.projects.map
              (fun q => if q.id == p.id then applyUpd p body else q) })
        else (400, db)

/-- `ProjectsView.delete`: 401 when unauthenticated; 403 when `user_type`
is not `"employer"`; 400 when `project_id` is missing; fetch by id and
owner together, 404 when that fails; otherwise delete (204). -/
def projectsDelete (caller : Option User) (projectId : Option Nat)
    (db : DB) : Nat × DB :=
  match caller with
  | none => (401, db)
  | some u =>
    if u.userType != some "employer" then (403, db)
    else
      match projectId with
      | none => (400, db)
      | some i =>
        match db.projects.find? (fun p => p.id == i && p.userId == u.id) with
        | none => (404, db)
        | some p =>
          (204, { db with projects := db.projects.filter (fun q => q.id != p.id) })

/-- `SampleWorkView.post`: 401 when unauthenticated; 403 when `user_type`
differs from `"freelancer"`; otherwise validate and save with
`user=<caller>` (201), or 400 on invalid data. -/
def sampleWorkPost (valid : SampleWorkData → Bool) (caller : Option User)
    (body : SampleWorkData) (db : DB) : Nat × DB :=
  match caller with
  | none => (401, db)
  | some u =>
    if u.userType != some "freelancer" then (403, db)
    else if valid body then
      (201, { db with
        sampleWorks := db.sampleWorks ++
          [sampleWorkOfData (freshSampleWorkId db) u.id body] })
    else (400, db)

/-- `SampleWorkView.put`: 401 when unauthenticated; 400 when
`sample_project_id` is missing; fetch by
`SampleWork.objects.get(id=samplework_id)` — by id alone — 404 when
absent; 403 when the fetched record's owner differs from the caller;
then validate (400 on failure) and save the update (200). -/
def sampleWorkPut (valid : SampleWorkData → Bool)
    (applyUpd : SampleWork → SampleWorkData → SampleWork)
    (caller : Option User) (sampleProjectId : Option Nat)
    (body : SampleWorkData) (db : DB) : Nat × DB :=
  match caller with
  | none => (401, db)
  | some u =>
    match sampleProjectId with
    | none => (400, db)
    | some i =>
      match db.sampleWorks.find? (fun s => s.id == i) with
      | none => (404, db)
      | some s =>
        if s.userId != u.id then (403, db)
        else if valid body then
          (200, { db with
            sampleWorks := db.sampleWorks.map
              (fun t => if t.id == s.id then applyUpd s body else t) })
        else (400, db)

/-- `SampleWorkView.delete`: 401 when unauthenticated; 403 when
`user_type` differs from `"freelancer"`; fetch by
`SampleWork.objects.get(id=samplework_id, user=user)` — id and owner
together — 404 when that lookup fails (an absent id behaves the same);
otherwise delete (204). -/
def sampleWorkDelete (caller : Option User) (sampleProjectId : Option Nat)
    (db : DB) : Nat × DB :=
  match caller with
  | none => (401, db)
  | some u =>
    if u.userType != some "freelancer" then (403, db)
    else
      match sampleProjectId with
      | none => (404, db)
      | some i =>
        match db.sampleWorks.find? (fun s => s.id == i && s.userId == u.id) with
        | none => (404, db)
        | some s =>
          (204, { db with
            sampleWorks := db.sampleWorks.filter (fun t => t.id != s.id) })

/-- `UserView.post` (sign-up), parametrised by the framework password
hasher: 403 when the caller is already authenticated; 400 on invalid
data; otherwise the serializer saves the submitted fields (plaintext
password included) and the view immediately re-saves the row with
`set_password(request.data.get("password"))`, so the stored password is
the hash of the submitted one (201). -/
def userPost (hash : String → String) (valid : UserData → Bool)
    (caller : Option User) (body : UserData) (db : DB) : Nat × DB :=
  match caller with
  | some _ => (403, db)
  | none =>
    if valid body then
      let saved := userOfData (freshUserId db) body
      let rehashed := { saved with password := hash body.password }
      (201, { db with users := db.users ++ [rehashed] })
    else (400, db)

/-- `UserView.get`: 401 when unauthenticated; otherwise the user list
narrowed to the caller's own row (200), up to pagination. -/
def userGet (caller : Option User) (db : DB) : Nat × List User :=
  match caller with
  | none => (401, [])
  | some u => (200, db.users.filter (fun t => t.id == u.id))

/-- `UserView.put`: 401 when unauthenticated; 400 when `user_id` is
missing; fetch the target by id alone, 404 when absent; 403 when the
given id differs from the caller's own id; then validate (400 on failure)
and save the update of the caller's row (200). -/
def userPut (valid : UserData → Bool) (applyUpd : User → UserData → User)
    (caller : Option User) (userId : Option Nat) (body : UserData)
    (db : DB) : Nat × DB :=
  match caller with
  | none => (401, db)
  | some u =>
    match userId with
    | none => (400, db)
    | some i =>
      match db.users.find? (fun t => t.id == i) with
      | none => (404, db)
      | some _ =>
        if i != u.id then (403, db)
        else if valid body then
          (200, { db with
            users := db.users.map
              (fun t => if t.id == u.id then applyUpd u body else t) })
        else (400, db)

/-- `UserView.delete`: the unauthenticated branch returns 403 (the view
code at `user/views.py:213` sends `HTTP_403_FORBIDDEN` with the detail
"Authentication required", although its swagger declaration lists that
message under 401); 400 when `user_id` is missing; fetch the target by id
alone, 404 when absent; 403 when the given id differs from the caller's
own id; otherwise `user.delete()` removes the caller's row and cascades
(204). -/
def userDelete (caller : Option User) (userId : Option Nat)
    (db : DB) : Nat × DB :=
  match caller with
  | none => (403, db)
  | some u =>
    match userId with
    | none => (400, db)
    | some i =>
      match db.users.find? (fun t => t.id == i) with
      | none => (404, db)
      | some _ =>
        if i != u.id then (403, db)
        else (204, deleteUserDb u.id db)

/-! ### Concrete fixtures used by witnesses and counterexamples -/

/-- A category row. -/
def exCat : Category := { id := 1, name := "Design", createdAt := 0 }

/-- A skill row referencing `exCat`. -/
def exSkill : Skill := { id := 1, name := "Figma", categoryId := 1, createdAt := 0 }

/-- A freelancer who owns nothing in the fixture database. -/
def exFreelancer : User :=
  { id := 1, username := "fl", email := "fl@example.com", password := "pw1",
    firstName := "A", lastName := "B", userType := some "freelancer",
    categoryId := none, phoneNumber := none, resume := none }

/-- A freelancer who owns the fixture project and sample work. -/
def exOwner : User :=
  { id := 2, username := "own", email := "own@example.com", password := "pw2",
    firstName := "C", lastName := "D", userType := some "freelancer",
    categoryId := none, phoneNumber := none, resume := none }

/-- An employer who owns nothing in the fixture database. -/
def exEmployer : User :=
  { id := 3, username := "emp", email := "emp@example.com", password := "pw3",
    firstName := "E", lastName := "F", userType := some "employer",
    categoryId := none, phoneNumber := none, resume := none }

/-- An authenticated user whose `user_type` is null (blank choice field). -/
def exNullUser : User :=
  { id := 7, username := "nil", email := "nil@example.com", password := "pw7",
    firstName := "G", lastName := "H", userType := none,
    categoryId := none, phoneNumber := none, resume := none }

/-- A user whose `category` foreign key references `exCat`. -/
def exUserWithCat : User :=
  { id := 4, username := "cat", email := "cat@example.com", password := "pw4",
    firstName := "I", lastName := "J", userType := some "freelancer",
    categoryId := some 1, phoneNumber := none, resume := none }

/-- A project owned by `exOwner`, in category `exCat`. -/
def exProj : Project :=
  { id := 9, userId := 2, name := "MyLogoX", description := "Make a logo",
    categoryId := 1, deadline := "2026-01-01", price := 100, createdAt := 0 }

/-- A sample work owned by `exOwner`. -/
def exSW : SampleWork :=
  { id := 5, userId := 2, name := "Logo pack", description := "Past work",
    skill := "design", image := none, createdAt := 0 }

/-- Fixture store: no user references a category, `exOwner` owns the
project and the sample work. -/
def exDbA : DB :=
  { categories := [exCat], skills := [exSkill], users := [exFreelancer, exOwner],
    projects := [exProj], sampleWorks := [exSW] }

/-- Fixture store in which `exUserWithCat` references `exCat`. -/
def exDbProtected : DB :=
  { categories := [exCat], skills := [exSkill], users := [exUserWithCat],
    projects := [exProj], sampleWorks := [] }

/-- A request body for the project serializer. -/
def exPBody : ProjectData :=
  { name := "Site", description := "Build a site", category := 1,
    deadline := "2026-02-01", price := 250 }

/-- A request body for the sample-work serializer. -/
def exSWBody : SampleWorkData :=
  { name := "New", description := "New desc", skill := "ui", image := none }

/-- A request body for the user serializer. -/
def exUBody : UserData :=
  { username := "nw", email := "nw@example.com", password := "secret",
    firstName := "K", lastName := "L", userType := some "freelancer",
    category := none, phoneNumber := none, resume := none }

/-! ### Helper lemmas about primary-key lookups -/

/-- With pairwise-distinct keys, looking a member up by its own key finds
exactly that member. -/
lemma find_eq_of_mem_of_nodup {α : Type} (f : α → Nat) (l : List α) (s : α)
    (hs : s ∈ l) (hnd : (l.map f).Nodup) :
    l.find? (fun t => f t == f s) = some s := by
  cases h : l.find? (fun t => f t == f s) with
  | none =>
    have := List.find?_eq_none.mp h s hs
    simp at this
  | some t =>
    have hmem := List.mem_of_find?_eq_some h
    have heq : f t = f s := by
      have := List.find?_some h
      simpa using this
    have hts : t = s := List.inj_on_of_nodup_map hnd hmem hs heq
    rw [hts]

/-- With pairwise-distinct keys, a lookup by a member's key conjoined with
an owner condition that member fails finds nothing. -/
lemma find_owner_eq_none {α : Type} (f g : α → Nat) (l : List α) (s : α)
    (uid : Nat) (hs : s ∈ l) (hnd : (l.map f).Nodup) (hown : g s ≠ uid) :
    l.find? (fun t => f t == f s && g t == uid) = none := by
  apply List.find?_eq_none.mpr
  intro t ht hpt
  have h1 : f t = f s ∧ g t = uid := by simpa using hpt
  have hts : t = s := List.inj_on_of_nodup_map hnd ht hs h1.1
  exact hown (hts ▸ h1.2)

/-- A lookup over a list containing a satisfying member succeeds. -/
lemma find_isSome_of_mem {α : Type} (p : α → Bool) (l : List α) (s : α)
    (hs : s ∈ l) (hps : p s = true) :
    ∃ t, l.find? p = some t ∧ p t = true := by
  cases h : l.find? p with
  | none => exact absurd (List.find?_eq_none.mp h s hs) (by simp [hps])
  | some t => exact ⟨t, rfl, List.find?_some h⟩

/-! ### Claims -/

/-- C1: for every authenticated freelancer and every sample-work record
the caller does not own, a PUT on that record's id returns 403 (the
record is fetched by id alone and the owner compared afterwards), while a
DELETE with the same id returns 404 (the lookup filters by id and owner
together); the two status codes differ and the store is unchanged in both
cases. -/
theorem c1_sampleWork_nonowner_put403_delete404
    (valid : SampleWorkData → Bool)
    (applyUpd : SampleWork → SampleWorkData → SampleWork)
    (u : User) (s : SampleWork) (body : SampleWorkData) (db : DB)
    (hfree : u.userType = some "freelancer")
    (hs : s ∈ db.sampleWorks)
    (hown : s.userId ≠ u.id)
    (hnd : (db.sampleWorks.map (fun t => t.id)).Nodup) :
    sampleWorkPut valid applyUpd (some u) (some s.id) body db = (403, db) ∧
    sampleWorkDelete (some u) (some s.id) db = (404, db) ∧
    (sampleWorkPut valid applyUpd (some u) (some s.id) body db).1 ≠
      (sampleWorkDelete (some u) (some s.id) db).1 := by
  have hfind : db.sampleWorks.find? (fun t => t.id == s.id) = some s :=
    find_eq_of_mem_of_nodup (fun t => t.id) db.sampleWorks s hs hnd
  have hnone :
      db.sampleWorks.find? (fun t => t.id == s.id && t.userId == u.id) = none :=
    find_owner_eq_none (fun t => t.id) (fun t => t.userId) db.sampleWorks s
      u.id hs hnd hown
  have hput :
      sampleWorkPut valid applyUpd (some u) (some s.id) body db = (403, db) := by
    simp [sampleWorkPut, hfind, hown]
  have hdel : sampleWorkDelete (some u) (some s.id) db = (404, db) := by
    simp [sampleWorkDelete, hfree, hnone]
  exact ⟨hput, hdel, by rw [hput, hdel]; simp⟩

/-- C1 witness: `exFreelancer` (id 1) against `exSW` (id 5, owned by
user 2) in `exDbA`. -/
theorem c1_witness :
    sampleWorkPut (fun _ => true) (fun t _ => t) (some exFreelancer)
      (some exSW.id) exSWBody exDbA = (403, exDbA) ∧
    sampleWorkDelete (some exFreelancer) (some exSW.id) exDbA = (404, exDbA) ∧
    (sampleWorkPut (fun _ => true) (fun t _ => t) (some exFreelancer)
      (some exSW.id) exSWBody exDbA).1 ≠
      (sampleWorkDelete (some exFreelancer) (some exSW.id) exDbA).1 :=
  c1_sampleWork_nonowner_put403_delete404 (fun _ => true) (fun t _ => t)
    exFreelancer exSW exSWBody exDbA rfl (by decide) (by decide) (by decide)

/-- C2: for every authenticated employer and every project owned by a
different user, a PUT and a DELETE on that project's id both return 404
(the lookup filters by id and owner together) and the store is
unchanged. -/
theorem c2_projects_nonowner_put404_delete404
    (valid : ProjectData → Bool)
    (applyUpd : Project → ProjectData → Project)
    (u : User) (p : Project) (body : ProjectData) (db : DB)
    (hemp : u.userType = some "employer")
    (hp : p ∈ db.projects)
    (hown : p.userId ≠ u.id)
    (hnd : (db.projects.map (fun t => t.id)).Nodup) :
    projectsPut valid applyUpd (some u) (some p.id) body db = (404, db) ∧
    projectsDelete (some u) (some p.id) db = (404, db) := by
  have hnone :
      db.projects.find? (fun t => t.id == p.id && t.userId == u.id) = none :=
    find_owner_eq_none (fun t => t.id) (fun t => t.userId) db.projects p
      u.id hp hnd hown
  constructor
  · simp [projectsPut, hnone]
  · simp [projectsDelete, hemp, hnone]

/-- C2 witness: `exEmployer` (id 3) against `exProj` (id 9, owned by
user 2) in `exDbA`. -/
theorem c2_witness :
    projectsPut (fun _ => true) (fun t _ => t) (some exEmployer)
      (some exProj.id) exPBody exDbA = (404, exDbA) ∧
    projectsDelete (some exEmployer) (some exProj.id) exDbA = (404, exDbA) :=
  c2_projects_nonowner_put404_delete404 (fun _ => true) (fun t _ => t)
    exEmployer exProj exPBody exDbA rfl (by decide) (by decide) (by decide)

/-- C3: evaluation at the failing input.  `ProjectsView.post` only rejects
callers whose `user_type` equals `"freelancer"`, so an authenticated
caller whose `user_type` is null — not an employer — gets 201 and the
project is created with that caller as owner, although the view's own
docstring states that only employers can create projects. -/
theorem c3_null_user_type_can_create_project :
    exNullUser.userType ≠ some "employer" ∧
    projectsPost (fun _ => true) (some exNullUser) exPBody exDbA =
      (201, { exDbA with
        projects := exDbA.projects ++
          [projectOfData (freshProjectId exDbA) exNullUser.id exPBody] }) ∧
    projectsPost (fun _ => true) (some exFreelancer) exPBody exDbA =
      (403, exDbA) :=
  ⟨by decide, rfl, rfl⟩

/-- C4: evaluation at the failing input.  An unauthenticated DELETE on
`/users/` returns 403 (the view sends `HTTP_403_FORBIDDEN` with the
detail "Authentication required", contradicting its own swagger
declaration of 401 for that case), while the other authenticated-only
handlers — user PUT shown here — return 401. -/
theorem c4_user_delete_unauthenticated_returns_403 :
    userDelete none (some exFreelancer.id) exDbA = (403, exDbA) ∧
    userPut (fun _ => true) (fun t _ => t) none (some exFreelancer.id)
      exUBody exDbA = (401, exDbA) :=
  ⟨rfl, rfl⟩

/-- C5: for an authenticated caller present in the store, a PUT on
`/users/` with the caller's own id and valid data returns 200 and updates
the caller's row; with the id of any other existing user it returns 403
and changes nothing; with an id matching no existing user it returns 404
and changes nothing (the existence lookup runs before the own-id
comparison). -/
theorem c5_user_put_own_id_only
    (valid : UserData → Bool) (applyUpd : User → UserData → User)
    (u : User) (db : DB) (hu : u ∈ db.users) :
    (∀ body, valid body = true →
      userPut valid applyUpd (some u) (some u.id) body db =
        (200, { db with
          users := db.users.map
            (fun t => if t.id == u.id then applyUpd u body else t) })) ∧
    (∀ t body, t ∈ db.users → t.id ≠ u.id →
      userPut valid applyUpd (some u) (some t.id) body db = (403, db)) ∧
    (∀ i body, (∀ t ∈ db.users, t.id ≠ i) →
      userPut valid applyUpd (some u) (some i) body db = (404, db)) := by
  refine ⟨?_, ?_, ?_⟩
  · intro body hbody
    obtain ⟨w, hw, -⟩ :=
      find_isSome_of_mem (fun t => t.id == u.id) db.users u hu (by simp)
    simp [userPut, hw, hbody]
  · intro t body ht hne
    obtain ⟨w, hw, -⟩ :=
      find_isSome_of_mem (fun x => x.id == t.id) db.users t ht (by simp)
    simp [userPut, hw, hne]
  · intro i body habs
    have hnone : db.users.find? (fun t => t.id == i) = none := by
      apply List.find?_eq_none.mpr
      intro t ht
      simp [habs t ht]
    simp [userPut, hnone]

/-- C5 witness: `exFreelancer` (id 1) in `exDbA` updating id 1 (200),
id 2 = `exOwner` (403), and id 99 which matches no user (404). -/
theorem c5_witness :
    userPut (fun _ => true) (fun t _ => t) (some exFreelancer) (some 1)
      exUBody exDbA = (200, exDbA) ∧
    userPut (fun _ => true) (fun t _ => t) (some exFreelancer) (some 2)
      exUBody exDbA = (403, exDbA) ∧
    userPut (fun _ => true) (fun t _ => t) (some exFreelancer) (some 99)
      exUBody exDbA = (404, exDbA) := by
  have h := c5_user_put_own_id_only (fun _ => true) (fun t _ => t)
    exFreelancer exDbA (by decide)
  refine ⟨(h.1 exUBody rfl).trans (by decide), ?_, ?_⟩
  · exact h.2.1 exOwner exUBody (by decide) (by decide)
  · exact h.2.2 99 exUBody (by decide)

/-- C6: for any password hasher that never returns its input unchanged
(Django's `set_password` stores `algorithm$iterations$salt$hash`),
sign-up while already authenticated returns 403 and creates no user,
and sign-up by an unauthenticated caller with valid data returns 201
and appends exactly one user row whose stored password is the hash of
the submitted password — never the plaintext itself. -/
theorem c6_signup_rejects_authenticated_and_hashes_password
    (hash : String → String) (valid : UserData → Bool)
    (hhash : ∀ s, hash s ≠ s) :
    (∀ (u : User) (body : UserData) (db : DB),
      userPost hash valid (some u) body db = (403, db)) ∧
    (∀ (body : UserData) (db : DB), valid body = true →
      ∃ w : User,
        userPost hash valid none body db =
          (201, { db with users := db.users ++ [w] }) ∧
        w.password = hash body.password ∧
        w.password ≠ body.password) := by
  refine ⟨fun u body db => rfl, fun body db hbody => ?_⟩
  refine ⟨{ userOfData (freshUserId db) body with
    password := hash body.password }, ?_, rfl, hhash body.password⟩
  simp [userPost, hbody]

/-- C6 witness: the hasher prepends a marker (so it never fixes its
input); an authenticated sign-up by `exFreelancer` yields 403 leaving
`exDbA` unchanged, and an unauthenticated sign-up with `exUBody` yields
201 with a stored password differing from the submitted `"secret"`. -/
theorem c6_witness :
    userPost (fun s => "x" ++ s) (fun _ => true) (some exFreelancer)
      exUBody exDbA = (403, exDbA) ∧
    ∃ w : User,
      userPost (fun s => "x" ++ s) (fun _ => true) none exUBody exDbA =
        (201, { exDbA with users := exDbA.users ++ [w] }) ∧
      w.password = "x" ++ exUBody.password ∧
      w.password ≠ exUBody.password := by
  have hhash : ∀ s : String, "x" ++ s ≠ s := by
    intro s h
    have hlen := congrArg String.length h
    simp [String.length_append] at hlen
    exact absurd hlen (by decide)
  have h := c6_signup_rejects_authenticated_and_hashes_password
    (fun s => "x" ++ s) (fun _ => true) hhash
  exact ⟨h.1 exFreelancer exUBody exDbA, h.2 exUBody exDbA rfl⟩

/-- C7 counterexample: the claim says the `name` filter field matches
exactly, but `ProjectsFilter.name` is declared with
`lookup_expr="icontains"`: in `exDbA` the query `?name=logo` returns the
project named `"MyLogoX"`, which is not the exact string `"logo"`. -/
theorem c7_name_filter_is_not_exact :
    projectsGetQueryset { search := none, name := some "logo", category := none }
      exDbA = [exProj] ∧
    exProj.name ≠ "logo" := by
  constructor
  · rfl
  · decide

/-- C7 as amended: a project survives `ProjectsView.get`'s narrowing iff
it is in the store and passes each given parameter — `search` and the
`name` filter field as case-insensitive substring matches on the name,
`category` as an exact match on the category key; with no parameters all
projects survive. -/
theorem c7_projects_get_characterization
    (q : ProjectQuery) (db : DB) (p : Project) :
    p ∈ projectsGetQueryset q db ↔
      p ∈ db.projects ∧
      (∀ s, q.search = some s → icontains p.name s = true) ∧
      (∀ n, q.name = some n → icontains p.name n = true) ∧
      (∀ c, q.category = some c → p.categoryId = c) := by
  obtain ⟨os, om, oc⟩ := q
  cases os <;> cases om <;> cases oc <;>
    simp [projectsGetQueryset, List.mem_filter, and_assoc] <;>
    intro _ <;> constructor <;> (intro h; tauto)

/-- C8 counterexample: the claim says deleting a Category always deletes
the Skills and Projects referencing it, but `User.category` is declared
`on_delete=models.PROTECT`: in `exDbProtected` a user references
category 1, so the delete is rejected outright and the referencing skill
is not removed. -/
theorem c8_category_delete_blocked :
    (exDbProtected.skills.any (fun s => s.categoryId == 1)) = true ∧
    deleteCategoryDb 1 exDbProtected = none := by
  exact ⟨rfl, rfl⟩

/-- C8 as amended: when no user references the category, deleting it
removes the category row and exactly the Skills and Projects referencing
it, leaving Users and SampleWorks untouched; and deleting a user removes
exactly that user row and every Projects and SampleWork record owned by
them, leaving Categories and Skills untouched.  (When some user
references the category, the delete is rejected by the protected foreign
key and nothing is removed.) -/
theorem c8_cascade_delete_semantics (db : DB) (cid uid : Nat)
    (hfree : ∀ u ∈ db.users, u.categoryId ≠ some cid) :
    (∃ db2, deleteCategoryDb cid db = some db2 ∧
      (∀ s : Skill, s ∈ db2.skills ↔ s ∈ db.skills ∧ s.categoryId ≠ cid) ∧
      (∀ p : Project, p ∈ db2.projects ↔ p ∈ db.projects ∧ p.categoryId ≠ cid) ∧
      (∀ c : Category, c ∈ db2.categories ↔ c ∈ db.categories ∧ c.id ≠ cid) ∧
      db2.users = db.users ∧ db2.sampleWorks = db.sampleWorks) ∧
    ((∀ t : User, t ∈ (deleteUserDb uid db).users ↔
        t ∈ db.users ∧ t.id ≠ uid) ∧
      (∀ p : Project, p ∈ (deleteUserDb uid db).projects ↔
        p ∈ db.projects ∧ p.userId ≠ uid) ∧
      (∀ w : SampleWork, w ∈ (deleteUserDb uid db).sampleWorks ↔
        w ∈ db.sampleWorks ∧ w.userId ≠ uid) ∧
      (deleteUserDb uid db).categories = db.categories ∧
      (deleteUserDb uid db).skills = db.skills) := by
  have hany : db.users.any (fun u => u.categoryId == some cid) = false := by
    rw [List.any_eq_false]
    intro u hu
    simp [hfree u hu]
  constructor
  · refine ⟨{ db with
        categories := db.categories.filter (fun c => c.id != cid),
        skills := db.skills.filter (fun s => s.categoryId != cid),
        projects := db.projects.filter (fun p => p.categoryId != cid) },
      by simp [deleteCategoryDb, hany], ?_, ?_, ?_, rfl, rfl⟩
    · intro s; simp [List.mem_filter]
    · intro p; simp [List.mem_filter]
    · intro c; simp [List.mem_filter]
  · refine ⟨?_, ?_, ?_, rfl, rfl⟩
    · intro t; simp [deleteUserDb, List.mem_filter]
    · intro p; simp [deleteUserDb, List.mem_filter]
    · intro w; simp [deleteUserDb, List.mem_filter]

/-- C8 witness: in `exDbA` no user references category 1; deleting it
removes `exSkill` and `exProj` but keeps the users, and deleting user 2
removes `exProj` and `exSW` but keeps the categories and skills. -/
theorem c8_witness :
    (∃ db2, deleteCategoryDb 1 exDbA = some db2 ∧
      exSkill ∉ db2.skills ∧ exProj ∉ db2.projects ∧
      db2.users = exDbA.users) ∧
    exProj ∉ (deleteUserDb 2 exDbA).projects ∧
    exSW ∉ (deleteUserDb 2 exDbA).sampleWorks ∧
    (deleteUserDb 2 exDbA).skills = exDbA.skills := by
  have h := c8_cascade_delete_semantics exDbA 1 2 (by decide)
  obtain ⟨⟨db2, heq, hs, hp, hc, hu, hw⟩, hdu, hdp, hdw, hdc, hds⟩ := h
  refine ⟨⟨db2, heq, ?_, ?_, hu⟩, ?_, ?_, hds⟩
  · intro hmem; exact ((hs exSkill).mp hmem).2 rfl
  · intro hmem; exact ((hp exProj).mp hmem).2 rfl
  · intro hmem; exact ((hdp exProj).mp hmem).2 rfl
  · intro hmem; exact ((hdw exSW).mp hmem).2 rfl

/-- C9: for each PUT handler (projects, sample-work, users), when the
caller is authenticated, the targeted record exists and is the caller's
own, and the request body fails serializer validation, the response is
400 and the store is left exactly as it was. -/
theorem c9_put_invalid_body_400_unchanged
    (pvalid : ProjectData → Bool) (papply : Project → ProjectData → Project)
    (svalid : SampleWorkData → Bool)
    (sapply : SampleWork → SampleWorkData → SampleWork)
    (uvalid : UserData → Bool) (uapply : User → UserData → User)
    (u : User) (p : Project) (s : SampleWork)
    (pb : ProjectData) (sb : SampleWorkData) (ub : UserData) (db : DB)
    (hp : p ∈ db.projects) (hpo : p.userId = u.id)
    (hs : s ∈ db.sampleWorks) (hso : s.userId = u.id)
    (hnds : (db.sampleWorks.map (fun t => t.id)).Nodup)
    (hu : u ∈ db.users)
    (hpb : pvalid pb = false) (hsb : svalid sb = false)
    (hub : uvalid ub = false) :
    projectsPut pvalid papply (some u) (some p.id) pb db = (400, db) ∧
    sampleWorkPut svalid sapply (some u) (some s.id) sb db = (400, db) ∧
    userPut uvalid uapply (some u) (some u.id) ub db = (400, db) := by
  refine ⟨?_, ?_, ?_⟩
  · obtain ⟨w, hw, -⟩ :=
      find_isSome_of_mem (fun t => t.id == p.id && t.userId == u.id)
        db.projects p hp (by simp [hpo])
    simp [projectsPut, hw, hpb]
  · have hfind : db.sampleWorks.find? (fun t => t.id == s.id) = some s :=
      find_eq_of_mem_of_nodup (fun t => t.id) db.sampleWorks s hs hnds
    simp [sampleWorkPut, hfind, hso, hsb]
  · obtain ⟨w, hw, -⟩ :=
      find_isSome_of_mem (fun t => t.id == u.id) db.users u hu (by simp)
    simp [userPut, hw, hub]

/-- C9 witness: `exOwner` (id 2) owns `exProj` and `exSW` in `exDbA`;
with an always-rejecting validator each PUT returns 400 and leaves the
store unchanged. -/
theorem c9_witness :
    projectsPut (fun _ => false) (fun t _ => t) (some exOwner)
      (some exProj.id) exPBody exDbA = (400, exDbA) ∧
    sampleWorkPut (fun _ => false) (fun t _ => t) (some exOwner)
      (some exSW.id) exSWBody exDbA = (400, exDbA) ∧
    userPut (fun _ => false) (fun t _ => t) (some exOwner)
      (some exOwner.id) exUBody exDbA = (400, exDbA) :=
  c9_put_invalid_body_400_unchanged (fun _ => false) (fun t _ => t)
    (fun _ => false) (fun t _ => t) (fun _ => false) (fun t _ => t)
    exOwner exProj exSW exPBody exSWBody exUBody exDbA
    (by decide) rfl (by decide) rfl (by decide) (by decide) rfl rfl rfl

/-- C10: a Category referenced by some user's `category` field cannot be
deleted — `User.category` is `on_delete=models.PROTECT`, so the delete is
rejected rather than cascading or nulling — and consequently, whenever
every user's category reference points to an existing category, that
referential invariant still holds after any category deletion that
succeeds. -/
theorem c10_user_category_reference_protected (db : DB) (cid : Nat) :
    ((∃ u ∈ db.users, u.categoryId = some cid) →
      deleteCategoryDb cid db = none) ∧
    ((∀ u ∈ db.users, ∀ c, u.categoryId = some c →
        ∃ cat ∈ db.categories, cat.id = c) →
      ∀ k db2, deleteCategoryDb k db = some db2 →
        ∀ u ∈ db2.users, ∀ c, u.categoryId = some c →
          ∃ cat ∈ db2.categories, cat.id = c) := by
  constructor
  · rintro ⟨u, hu, hcat⟩
    have : db.users.any (fun t => t.categoryId == some cid) = true := by
      rw [List.any_eq_true]
      exact ⟨u, hu, by simp [hcat]⟩
    simp [deleteCategoryDb, this]
  · intro hinv k db2 hdel u hu c hc
    rw [deleteCategoryDb] at hdel
    by_cases hany : db.users.any (fun t => t.categoryId == some k) = true
    · rw [if_pos hany] at hdel; cases hdel
    · rw [if_neg hany] at hdel
      have hdb2 := (Option.some.injEq _ _).mp hdel
      have hu2 : u ∈ db.users := by rw [← hdb2] at hu; exact hu
      obtain ⟨cat, hcatmem, hcatid⟩ := hinv u hu2 c hc
      have hck : c ≠ k := by
        intro hck
        apply hany
        rw [List.any_eq_true]
        exact ⟨u, hu2, by simp [hc, hck]⟩
      refine ⟨cat, ?_, hcatid⟩
      rw [← hdb2]
      simp [List.mem_filter, hcatmem, hcatid, hck]

/-- C10 witness: deleting category 1 in `exDbProtected` (referenced by
`exUserWithCat`) is rejected; and in `exDbA`, whose users reference no
category, any successful category deletion preserves the referential
invariant. -/
theorem c10_witness :
    deleteCategoryDb 1 exDbProtected = none ∧
    (∀ k db2, deleteCategoryDb k exDbA = some db2 →
      ∀ u ∈ db2.users, ∀ c, u.categoryId = some c →
        ∃ cat ∈ db2.categories, cat.id = c) := by
  constructor
  · exact (c10_user_category_reference_protected exDbProtected 1).1
      ⟨exUserWithCat, by decide, rfl⟩
  · refine (c10_user_category_reference_protected exDbA 0).2 ?_
    intro u hu c hc
    fin_cases hu <;> simp [exFreelancer, exOwner] at hc

end GigFlow
